import Mathlib

/-!
# Booking Gateway — shallow embedding

Verification of the meeting-room booking gateway (two variants of
`server.js`: the updated one under `src/server.js` and the early one under
`src/unnamed/part_000`).  The handlers are single-pass request → external
call → response pipelines; we embed them as pure functions over an explicit
list-of-rows store, with the identity provider abstracted as a function
from tokens to optional users and the per-user admin email lookup as a
function from user ids to a three-way outcome (found / failed / raised).

JavaScript truthiness matters in several places (`event.title &&`,
`event.id || Date.now()`, `userEmails[id] || 'Unknown User'`), so client
field values are embedded as an explicit JS-value type where that is
observable, and as `Option String` where only presence/emptiness matters.
-/

/-- A JavaScript value as far as the gateway observes it: a number, a
string, or `undefined` (an absent field). -/
inductive JsVal where
  | num (n : Int)
  | str (s : String)
  | undef
deriving DecidableEq, Repr

/-- JS truthiness of a `JsVal`: `0`, `""` and `undefined` are falsy. -/
def JsVal.truthy : JsVal → Bool
  | .num n => decide (n ≠ 0)
  | .str s => decide (s ≠ "")
  | .undef => false

/-- JS truthiness of an optional string (absent or empty is falsy). -/
def truthyStr : Option String → Bool
  | none => false
  | some s => decide (s ≠ "")

/-- `/^\d{4}-\d{2}-\d{2}$/.test s` from the POST validation: exactly four
digits, a dash, two digits, a dash, two digits. -/
def matchesDatePat (s : String) : Bool :=
  match s.toList with
  | [a, b, c, d, h1, e, f, h2, g, k] =>
    a.isDigit && b.isDigit && c.isDigit && d.isDigit && h1 == '-' &&
    e.isDigit && f.isDigit && h2 == '-' && g.isDigit && k.isDigit
  | _ => false

/-- `/^\d{2}:\d{2}$/.test s` from the POST validation: two digits, a
colon, two digits. -/
def matchesTimePat (s : String) : Bool :=
  match s.toList with
  | [a, b, c, d, e] => a.isDigit && b.isDigit && c == ':' && d.isDigit && e.isDigit
  | _ => false

/-- Regex `.test` applied to a possibly absent field; an absent field is
coerced by JS to the string `"undefined"`, which matches neither pattern,
so absence simply fails the test. -/
def testPat (p : String → Bool) : Option String → Bool
  | none => false
  | some s => p s

/-- One element of the JSON array posted to `POST /api/data`.  `id` is kept
as a raw JS value because the handler branches on its truthiness
(`event.id || Date.now()`); `userId` records any client-supplied owner
field, which the handler never reads. -/
structure RawEvent where
  id : JsVal
  title : Option String
  date : Option String
  startTime : Option String
  endTime : Option String
  userId : Option String
deriving DecidableEq, Repr

/-- The `isValid` predicate of `POST /api/data` (identical in both
variants): truthy `title`, `date` matching the date pattern, `startTime`
and `endTime` matching the time pattern. -/
def validEvent (e : RawEvent) : Bool :=
  truthyStr e.title &&
  testPat matchesDatePat e.date &&
  testPat matchesTimePat e.startTime &&
  testPat matchesTimePat e.endTime

/-- A row of the external `bookings` table as selected by the gateway. -/
structure Row where
  id : JsVal
  title : String
  date : String
  start_time : String
  end_time : String
  user_id : String
deriving DecidableEq, Repr

/-- A user as resolved by the identity provider from a bearer token. -/
structure User where
  id : String
  email : Option String
deriving DecidableEq, Repr

/-- JS `String.prototype.split` on a one-character separator, over the
character list: `''.split(c)` is `['']`, a separator occurrence always
opens a new (possibly empty) chunk. -/
def splitOnChar (c : Char) : List Char → List (List Char)
  | [] => [[]]
  | x :: xs =>
    if x = c then
      [] :: splitOnChar c xs
    else
      match splitOnChar c xs with
      | [] => [[x]]
      | y :: ys => (x :: y) :: ys

/-- JS `s.split(c)` for a one-character separator `c`. -/
def jsSplit (c : Char) (s : String) : List String :=
  (splitOnChar c s.data).map String.mk

/-- The `authenticate` middleware of the updated variant: no
`Authorization` header is a 401; the token is `header.split(' ')[1]`
(when the header has no space the token is `undefined`, which the provider
never resolves, again a 401); an unresolvable token is a 401; otherwise
the resolved user is attached to the request.  `resolve` abstracts
`supabase.auth.getUser` returning either a user or an error/no user. -/
def authenticate (resolve : String → Option User) (authHeader : Option String) :
    Except Unit User :=
  match authHeader with
  | none => .error ()
  | some h =>
    match (jsSplit ' ' h).get? 1 with
    | none => .error ()
    | some tok =>
      match resolve tok with
      | none => .error ()
      | some u => .ok u

/-- `id: event.id || Date.now()` — the stored identifier is the client id
when truthy, else the current-time number. -/
def effId (v : JsVal) (now : Int) : JsVal :=
  if v.truthy then v else .num now

/-- The row built from one posted event (`supabaseData`): enumerated
fields only, owner stamped from the authenticated user; any client-supplied
owner field is ignored. -/
def toRow (uid : String) (now : Int) (e : RawEvent) : Row :=
  ⟨effId e.id now, e.title.getD "", e.date.getD "", e.startTime.getD "",
   e.endTime.getD "", uid⟩

/-- Upsert of a single row keyed by `id`: replace every row with the same
identifier if one exists, otherwise append. -/
def upsertOne (store : List Row) (r : Row) : List Row :=
  if store.any (fun x => x.id = r.id) then
    store.map (fun x => if x.id = r.id then r else x)
  else
    store ++ [r]

/-- Batch upsert (`.upsert(supabaseData)`), insert-or-replace keyed by
identifier, processed left to right, so within one batch a later item with
the same identifier replaces an earlier one.  (A Postgres
`ON CONFLICT DO UPDATE` would instead reject a batch that touches the same
key twice; either semantics stores at most one row per identifier from a
batch, and the claims settled below hold under both.) -/
def upsert (store : List Row) (rs : List Row) : List Row :=
  rs.foldl upsertOne store

/-- Outcome of `POST /api/data`. -/
inductive PostResult where
  | ok (itemsSaved : Nat)
  | badRequest
  | unauthorized
  | serverError
deriving DecidableEq, Repr

/-- Body of `POST /api/data` after `authenticate`: a non-array body
(`none`) is a 400; any invalid element rejects the whole batch with a 400;
otherwise every item is mapped through `toRow` (owner = the authenticated
user, id defaulted from `Date.now()`) and upserted as one batch, reporting
the number of items saved. -/
def postData (u : User) (body : Option (List RawEvent)) (now : Int)
    (store : List Row) : PostResult × List Row :=
  match body with
  | none => (.badRequest, store)
  | some events =>
    if events.all validEvent then
      (.ok events.length, upsert store (events.map (toRow u.id now)))
    else
      (.badRequest, store)

/-- The full updated-variant `POST /api/data` request: `authenticate`
middleware, then the handler. -/
def postRequest (resolve : String → Option User) (authHeader : Option String)
    (body : Option (List RawEvent)) (now : Int) (store : List Row) :
    PostResult × List Row :=
  match authenticate resolve authHeader with
  | .error _ => (.unauthorized, store)
  | .ok u => postData u body now store

/-- Outcome of `DELETE /api/data/:id`. -/
inductive DeleteResult where
  | ok
  | notFound
  | forbidden
  | unauthorized
  | serverError
deriving DecidableEq, Repr

/-- `.eq('id', req.params.id)`: the route parameter is a string and the
store compares it against the typed `id` column, so a numeric identifier
matches when its decimal rendering equals the parameter. -/
def idMatches (v : JsVal) (param : String) : Bool :=
  match v with
  | .num n => decide (toString n = param)
  | .str s => decide (s = param)
  | .undef => false

/-- The updated-variant `DELETE /api/data/:id` handler after
`authenticate`.  The ownership probe uses `.single()`, which yields an
error (`PGRST116`) whenever the query returns zero rows — or more than
one — and the handler throws on that error *before* its `if (!booking)`
not-found branch, so a missing id lands in the catch block as a 500 and
the 404 branch is unreachable.  With exactly one matching row: a
non-owning caller gets a 403 and the store is untouched; the owner's
request deletes every row matching the id and reports success. -/
def deleteData (store : List Row) (callerId : String) (idParam : String) :
    DeleteResult × List Row :=
  match store.filter (fun r => idMatches r.id idParam) with
  | [r] =>
    if r.user_id = callerId then
      (.ok, store.filter (fun x => !idMatches x.id idParam))
    else
      (.forbidden, store)
  | _ => (.serverError, store)

/-- The full updated-variant `DELETE /api/data/:id` request:
`authenticate` middleware, then the handler. -/
def deleteRequest (resolve : String → Option User) (authHeader : Option String)
    (store : List Row) (idParam : String) : DeleteResult × List Row :=
  match authenticate resolve authHeader with
  | .error _ => (.unauthorized, store)
  | .ok u => deleteData store u.id idParam

/-- The early-variant `DELETE /api/data/:id` (`src/unnamed/part_000`):
no authentication middleware, no ownership probe — it deletes every row
matching the id and reports success, for any caller at all. -/
def deleteRequestEarly (store : List Row) (idParam : String) :
    DeleteResult × List Row :=
  (.ok, store.filter (fun x => !idMatches x.id idParam))

/-- Outcome of one `supabase.auth.admin.getUserById` call during the GET
listing: the provider returned a user (whose `email` may itself be
absent), returned an error or no user without throwing, or threw. -/
inductive LookupResult where
  | found (email : Option String)
  | failed
  | thrown
deriving DecidableEq, Repr

/-- The `userEmails` map entry produced for one user id: on success the
user's email (an absent email leaves the entry undefined); on a
non-throwing failure no entry is written; on a raised error the handler's
catch block writes the sentinel string `"Unknown User"` *as the email*. -/
def emailEntry : LookupResult → Option String
  | .found e => e
  | .failed => none
  | .thrown => some "Unknown User"

/-- `v || d` on an optional string: the JS fallback fires on an absent
entry and on an empty string alike. -/
def jsOrDefault (v : Option String) (d : String) : String :=
  match v with
  | none => d
  | some s => if s = "" then d else s

/-- `email.split('@')[0]` — the part before the first `'@'`, or the whole
string when it contains none (`split` always returns a nonempty array). -/
def localPart (s : String) : String :=
  (jsSplit '@' s).headD s

/-- One element of `transformedData` in the GET handler: snake-case row
fields renamed, `userEmail` defaulted to `"Unknown User"` when the map
entry is falsy, `userName` the local part of the entry when truthy and
`"Unknown"` otherwise. -/
structure Item where
  id : JsVal
  title : String
  date : String
  startTime : String
  endTime : String
  userId : String
  userEmail : String
  userName : String
deriving DecidableEq, Repr

/-- The per-row transform of the GET handler. -/
def transformItem (emails : String → Option String) (r : Row) : Item :=
  ⟨r.id, r.title, r.date, r.start_time, r.end_time, r.user_id,
   jsOrDefault (emails r.user_id) "Unknown User",
   match emails r.user_id with
   | none => "Unknown"
   | some s => if s = "" then "Unknown" else localPart s⟩

/-- Executable lexicographic comparison of character lists, agreeing with
the standard order on `String` (see `charsLe_iff`). -/
def charsLe : List Char → List Char → Bool
  | [], _ => true
  | _ :: _, [] => false
  | a :: as, b :: bs =>
    if a < b then true else if b < a then false else charsLe as bs

/-- Executable version of the standard `String` order. -/
def strLe (s t : String) : Bool := charsLe s.data t.data

/-- The date order used by `.order('date', { ascending: true })`. -/
def dateLe (a b : Row) : Prop := strLe a.date b.date = true

instance : DecidableRel dateLe := fun a b =>
  inferInstanceAs (Decidable (strLe a.date b.date = true))

/-- `GET /api/data` (identical in both variants): all rows ordered by
ascending date, each transformed with the email map built from the one
admin lookup per distinct owner.  The route has no authentication
middleware and reads no credentials. -/
def getData (store : List Row) (lookup : String → LookupResult) : List Item :=
  (List.insertionSort dateLe store).map
    (transformItem (fun uid => emailEntry (lookup uid)))

/-! ### Concrete fixtures used by the gateway theorems -/

/-- A stored booking owned by `"alice"`. -/
def sampleRow : Row := ⟨.num 1, "A", "2024-01-05", "09:00", "09:15", "alice"⟩

/-- An identity provider resolving exactly the token `"tok"`, to the user
`"u1"`. -/
def sampleResolve : String → Option User :=
  fun t => if t = "tok" then some ⟨"u1", some "bob@example.com"⟩ else none

/-- A valid posted event with client id `1` and title `"A"`. -/
def dupEventA : RawEvent :=
  ⟨.num 1, some "A", some "2024-01-05", some "09:00", some "09:15", none⟩

/-- A valid posted event with the same client id `1`, title `"B"`, and a
client-supplied owner field. -/
def dupEventB : RawEvent :=
  ⟨.num 1, some "B", some "2024-01-05", some "09:00", some "09:15", some "mallory"⟩

/-- A posted event whose date and times match the digit patterns but name
no real calendar date or clock time. -/
def oddEvent : RawEvent :=
  ⟨.undef, some "X", some "2024-13-40", some "99:99", some "99:99", none⟩

/-! ### Order lemmas for the date sort -/

theorem charsLe_iff_not_lex :
    ∀ as bs : List Char, charsLe as bs = true ↔ ¬ List.Lex (· < ·) bs as
  | [], bs => by
    simp only [charsLe, true_iff]
    intro h
    cases h
  | a :: as, [] => by
    simp only [charsLe, Bool.false_eq_true, false_iff, not_not]
    exact List.Lex.nil
  | a :: as, b :: bs => by
    simp only [charsLe]
    by_cases hab : a < b
    · simp only [if_pos hab, true_iff]
      intro h
      cases h with
      | cons h' => exact lt_irrefl a hab
      | rel h' => exact absurd hab (asymm h')
    · by_cases hba : b < a
      · simp only [if_neg hab, if_pos hba, Bool.false_eq_true, false_iff, not_not]
        exact List.Lex.rel hba
      · have hev : a = b := le_antisymm (le_of_not_lt hba) (le_of_not_lt hab)
        subst hev
        simp only [if_neg hab, if_neg hba]
        rw [charsLe_iff_not_lex as bs]
        constructor
        · intro h hc
          cases hc with
          | cons h' => exact h h'
          | rel h' => exact lt_irrefl a h'
        · intro h hc
          exact h (List.Lex.cons hc)


theorem strLe_iff (s t : String) : strLe s t = true ↔ s ≤ t := by
  rw [String.le_iff_toList_le, ← not_lt]
  exact charsLe_iff_not_lex s.data t.data

theorem dateLe_total (a b : Row) : dateLe a b ∨ dateLe b a := by
  rcases le_total a.date b.date with h | h
  · exact Or.inl ((strLe_iff a.date b.date).mpr h)
  · exact Or.inr ((strLe_iff b.date a.date).mpr h)

theorem dateLe_trans {a b c : Row} (h : dateLe a b) (h' : dateLe b c) : dateLe a c :=
  (strLe_iff a.date c.date).mpr
    (le_trans ((strLe_iff a.date b.date).mp h) ((strLe_iff b.date c.date).mp h'))

/-! ### Upsert membership lemmas -/

theorem mem_upsertOne_self (store : List Row) (r : Row) : r ∈ upsertOne store r := by
  unfold upsertOne
  by_cases h : store.any (fun x => x.id = r.id)
  · rw [if_pos h]
    rcases List.any_eq_true.mp h with ⟨x, hx, hxid⟩
    exact List.mem_map.mpr ⟨x, hx, by simp [of_decide_eq_true hxid]⟩
  · rw [if_neg h]
    exact List.mem_append_right _ (List.mem_singleton.mpr rfl)

theorem mem_upsertOne_of_ne {r : Row} {store : List Row} (r' : Row)
    (hmem : r ∈ store) (hne : r.id ≠ r'.id) : r ∈ upsertOne store r' := by
  unfold upsertOne
  by_cases h : store.any (fun x => x.id = r'.id)
  · rw [if_pos h]
    exact List.mem_map.mpr ⟨r, hmem, by rw [if_neg hne]⟩
  · rw [if_neg h]
    exact List.mem_append_left _ hmem

theorem mem_upsert_of_ne {r : Row} :
    ∀ (rs : List Row) (store : List Row), r ∈ store →
      (∀ r' ∈ rs, r.id ≠ r'.id) → r ∈ upsert store rs
  | [], _, hmem, _ => hmem
  | r' :: rest, store, hmem, hne =>
    mem_upsert_of_ne rest (upsertOne store r')
      (mem_upsertOne_of_ne r' hmem (hne r' (List.mem_cons_self r' rest)))
      (fun x hx => hne x (List.mem_cons_of_mem r' hx))

theorem mem_upsert_self :
    ∀ (rs : List Row) (store : List Row), (rs.map Row.id).Nodup →
      ∀ r ∈ rs, r ∈ upsert store rs
  | [], _, _, r, hr => absurd hr (List.not_mem_nil r)
  | x :: rest, store, hnd, r, hr => by
    rw [List.map_cons, List.nodup_cons] at hnd
    rcases List.mem_cons.mp hr with rfl | hr'
    · exact mem_upsert_of_ne rest (upsertOne store r)
        (mem_upsertOne_self store r)
        (fun r' hr' heq => hnd.1 (heq ▸ List.mem_map_of_mem Row.id hr'))
    · exact mem_upsert_self rest (upsertOne store x) hnd.2 r hr'

/-! ### GET listing membership -/

theorem mem_getData {r : Row} {store : List Row} (lookup : String → LookupResult)
    (h : r ∈ store) :
    transformItem (fun uid => emailEntry (lookup uid)) r ∈ getData store lookup :=
  List.mem_map_of_mem _ ((List.perm_insertionSort dateLe store).mem_iff.mpr h)

/-! ### Claim theorems -/

/-- C10: POST validation is purely syntactic — a batch whose date matches
the digit pattern but is no real calendar date (`"2024-13-40"`) and whose
times match the digit pattern but are no real clock times (`"99:99"`)
passes validation and is accepted and upserted. -/
theorem c10_syntactic_validation :
    validEvent oddEvent = true ∧
    postRequest sampleResolve (some "Bearer tok") (some [oddEvent]) 5 [] =
      (.ok 1, [⟨.num 5, "X", "2024-13-40", "99:99", "99:99", "u1"⟩]) := by
  decide

/-- C8: the two delete variants are not equivalent — on the same store,
the early variant deletes Alice's booking for a caller who presents no
credential at all, while the updated variant refuses the same deletion
with 403 for an authenticated non-owner (and 401 without a credential),
leaving the row in place. -/
theorem c8_variants_inequivalent :
    deleteRequestEarly [sampleRow] "1" = (.ok, []) ∧
    deleteRequest sampleResolve (some "Bearer tok") [sampleRow] "1" =
      (.forbidden, [sampleRow]) ∧
    deleteRequest sampleResolve none [sampleRow] "1" =
      (.unauthorized, [sampleRow]) := by
  decide

/-- C5: in the updated variant, POST and DELETE with a missing header or
an unresolvable token give 401 and leave the store unchanged; but the
early variant's DELETE handler performs no authentication at all — with
no Authorization header it still reports success and removes the row,
contradicting the claim's universal 401-and-no-mutation guarantee. -/
theorem c5_unauthenticated_requests :
    postRequest sampleResolve none (some [dupEventA]) 99 [sampleRow] =
      (.unauthorized, [sampleRow]) ∧
    postRequest sampleResolve (some "Bearer bad") (some [dupEventA]) 99 [sampleRow] =
      (.unauthorized, [sampleRow]) ∧
    deleteRequest sampleResolve none [sampleRow] "1" =
      (.unauthorized, [sampleRow]) ∧
    deleteRequest sampleResolve (some "Bearer bad") [sampleRow] "1" =
      (.unauthorized, [sampleRow]) ∧
    deleteRequestEarly [sampleRow] "1" = (.ok, []) := by
  decide

/-- Unreachability of the not-found outcome: whatever the provider, the
header, the store and the id, the delete pipeline never answers 404 — the
`.single()` probe errors on zero rows and the handler throws on that error
before its `if (!booking)` branch. -/
theorem deleteRequest_never_notFound (resolve : String → Option User)
    (authHeader : Option String) (store : List Row) (idParam : String) :
    (deleteRequest resolve authHeader store idParam).1 ≠ DeleteResult.notFound := by
  unfold deleteRequest
  cases authenticate resolve authHeader with
  | error e => simp
  | ok u =>
    simp only [deleteData]
    split
    · split <;> simp
    · simp

/-- C3: an authenticated DELETE of the id "2", matching no booking in a
store holding only id 1, does not produce the claimed 404 — the
`.single()` probe errors on zero rows and the handler throws before its
dead not-found branch, so the request ends in a 500 with the store
untouched. -/
theorem c3_delete_missing_id_is_500 :
    deleteRequest sampleResolve (some "Bearer tok") [sampleRow] "2" =
      (.serverError, [sampleRow]) := by
  decide

/-- C6 counterexample: with one stored booking whose owner lookup raises
an error, the returned item's userName is the sentinel "Unknown User",
not the "Unknown" demanded by the claim for failed resolutions. -/
theorem c6_thrown_lookup_username :
    getData [sampleRow] (fun _ => .thrown) =
      [⟨.num 1, "A", "2024-01-05", "09:00", "09:15", "alice",
        "Unknown User", "Unknown User"⟩] ∧
    ("Unknown User" : String) ≠ "Unknown" := by
  decide

/-- C1 counterexample: a valid batch holding two bookings with the same
client id — title "A" then title "B" — is accepted (200, itemsSaved 2),
but the subsequent listing holds no item titled "A": the second upsert
replaced the first, so not every submitted booking is returned. -/
theorem c1_duplicate_id_batch_loses_booking :
    [dupEventA, dupEventB].all validEvent = true ∧
    postRequest sampleResolve (some "Bearer tok") (some [dupEventA, dupEventB]) 99 [] =
      (.ok 2, [⟨.num 1, "B", "2024-01-05", "09:00", "09:15", "u1"⟩]) ∧
    (getData [⟨.num 1, "B", "2024-01-05", "09:00", "09:15", "u1"⟩]
        (fun _ => .failed)).all (fun it => it.title ≠ "A") = true := by
  decide

/-- C7: the GET listing — a handler with no authentication middleware and
no credential input at all — is ordered by ascending date: every pair of
items in order of appearance satisfies `date ≤ date` in the standard
string order (lexicographic, which on `YYYY-MM-DD` strings is
chronological). -/
theorem c7_get_sorted_by_date (store : List Row) (lookup : String → LookupResult) :
    List.Pairwise (fun a b : Item => a.date ≤ b.date) (getData store lookup) := by
  have hs : List.Sorted dateLe (List.insertionSort dateLe store) :=
    @List.sorted_insertionSort Row dateLe _ ⟨dateLe_total⟩
      ⟨fun _ _ _ h h' => dateLe_trans h h'⟩ store
  exact List.Pairwise.map _ (fun a b h => (strLe_iff a.date b.date).mp h) hs

/-- C2: for an authenticated DELETE whose id matches exactly the stored
booking `r`, a caller other than the owner gets 403 with the store
untouched, while the owner's request succeeds and removes the booking. -/
theorem c2_delete_ownership (resolve : String → Option User)
    (authHeader : Option String) (u : User) (store : List Row)
    (idParam : String) (r : Row)
    (hauth : authenticate resolve authHeader = .ok u)
    (hone : store.filter (fun x => idMatches x.id idParam) = [r]) :
    (r.user_id ≠ u.id →
      deleteRequest resolve authHeader store idParam = (.forbidden, store)) ∧
    (r.user_id = u.id →
      deleteRequest resolve authHeader store idParam =
        (.ok, store.filter (fun x => !idMatches x.id idParam)) ∧
      r ∉ (deleteRequest resolve authHeader store idParam).2) := by
  have hd : deleteRequest resolve authHeader store idParam =
      deleteData store u.id idParam := by
    unfold deleteRequest
    rw [hauth]
  have hrfilter : r ∈ store.filter (fun x => idMatches x.id idParam) := by
    rw [hone]
    exact List.mem_singleton.mpr rfl
  have hrmatch : idMatches r.id idParam = true := (List.mem_filter.mp hrfilter).2
  constructor
  · intro hne
    rw [hd]
    unfold deleteData
    rw [hone]
    exact if_neg hne
  · intro heq
    have hdel : deleteRequest resolve authHeader store idParam =
        (.ok, store.filter (fun x => !idMatches x.id idParam)) := by
      rw [hd]
      unfold deleteData
      rw [hone]
      exact if_pos heq
    refine ⟨hdel, ?_⟩
    rw [hdel]
    intro hmem
    have := (List.mem_filter.mp hmem).2
    rw [hrmatch] at this
    exact absurd this (by decide)

/-- C2 witness: with one stored booking owned by "alice" and the caller
resolved to "u1", the delete is refused with 403 and the store is
unchanged. -/
theorem c2_delete_ownership_witness :
    deleteRequest sampleResolve (some "Bearer tok") [sampleRow] "1" =
      (.forbidden, [sampleRow]) :=
  (c2_delete_ownership sampleResolve (some "Bearer tok")
    ⟨"u1", some "bob@example.com"⟩ [sampleRow] "1" sampleRow rfl rfl).1
    (by decide)

/-- C4: an authenticated POST with a non-array body, or with any batch
element having a missing or empty title, a date failing the
digit pattern, or a start or end time failing the digit pattern, answers
400 and writes nothing from the batch to the store. -/
theorem c4_invalid_post_rejected (resolve : String → Option User)
    (authHeader : Option String) (u : User) (now : Int) (store : List Row)
    (hauth : authenticate resolve authHeader = .ok u) :
    postRequest resolve authHeader none now store = (.badRequest, store) ∧
    ∀ (events : List RawEvent) (e : RawEvent), e ∈ events →
      (e.title = none ∨ e.title = some "" ∨
        testPat matchesDatePat e.date = false ∨
        testPat matchesTimePat e.startTime = false ∨
        testPat matchesTimePat e.endTime = false) →
      postRequest resolve authHeader (some events) now store = (.badRequest, store) := by
  have hp : ∀ b, postRequest resolve authHeader b now store = postData u b now store := by
    intro b
    unfold postRequest
    rw [hauth]
  constructor
  · rw [hp]
    rfl
  · intro events e hmem hbad
    have hinv : validEvent e = false := by
      rcases hbad with h | h | h | h | h <;>
        simp [validEvent, truthyStr, h]
    have hall : events.all validEvent = false := by
      cases hall : events.all validEvent with
      | false => rfl
      | true => exact absurd (List.all_eq_true.mp hall e hmem) (by rw [hinv]; decide)
    rw [hp]
    unfold postData
    exact if_neg (by simp [hall])

/-- C4 witness: an authenticated POST whose single element has an empty
title is rejected with 400 and the empty store stays empty. -/
theorem c4_invalid_post_rejected_witness :
    postRequest sampleResolve (some "Bearer tok")
      (some [⟨.undef, some "", some "2024-01-01", some "09:00", some "10:00", none⟩])
      0 [] = (.badRequest, []) :=
  (c4_invalid_post_rejected sampleResolve (some "Bearer tok")
      ⟨"u1", some "bob@example.com"⟩ 0 [] rfl).2
    [⟨.undef, some "", some "2024-01-01", some "09:00", some "10:00", none⟩]
    ⟨.undef, some "", some "2024-01-01", some "09:00", some "10:00", none⟩
    (by decide) (Or.inr (Or.inl rfl))

/-- C9: a falsy client identifier (0, empty string, or absent) is replaced
by the generated current-time identifier — the built row is the same as
for an absent identifier and carries id `Date.now()` — and a valid
single-element batch is accepted and upserted under that id. -/
theorem c9_falsy_id_generated (u : User) (now : Int) (store : List Row)
    (e : RawEvent) (hfalsy : e.id.truthy = false) (hvalid : validEvent e = true) :
    (toRow u.id now e).id = .num now ∧
    toRow u.id now e =
      toRow u.id now ⟨.undef, e.title, e.date, e.startTime, e.endTime, e.userId⟩ ∧
    postData u (some [e]) now store = (.ok 1, upsertOne store (toRow u.id now e)) := by
  have hid : effId e.id now = .num now := by
    unfold effId
    rw [hfalsy]
    rfl
  refine ⟨hid, ?_, ?_⟩
  · unfold toRow
    rw [hid]
    rfl
  · unfold postData
    simp [hvalid, upsert]

/-- C9 witness: the client id `0` on an otherwise valid event is replaced
by the generated id `7` and the event is stored under it. -/
theorem c9_falsy_id_generated_witness :
    (toRow "u1" 7 ⟨.num 0, some "T", some "2024-01-01", some "08:00", some "09:00", none⟩).id =
      .num 7 ∧
    toRow "u1" 7 ⟨.num 0, some "T", some "2024-01-01", some "08:00", some "09:00", none⟩ =
      toRow "u1" 7 ⟨.undef, some "T", some "2024-01-01", some "08:00", some "09:00", none⟩ ∧
    postData ⟨"u1", none⟩
        (some [⟨.num 0, some "T", some "2024-01-01", some "08:00", some "09:00", none⟩]) 7 [] =
      (.ok 1, upsertOne []
        (toRow "u1" 7 ⟨.num 0, some "T", some "2024-01-01", some "08:00", some "09:00", none⟩)) :=
  c9_falsy_id_generated ⟨"u1", none⟩ 7 []
    ⟨.num 0, some "T", some "2024-01-01", some "08:00", some "09:00", none⟩
    (by decide) (by decide)

/-- C1 (amended): for every valid batch whose effective identifiers
(client id when truthy, else the generated current-time id) are pairwise
distinct, an authenticated POST succeeds and the subsequent GET listing
contains, for every submitted booking, an item with its title, date and
times whose owner is the authenticated caller — regardless of any
client-supplied owner value in the batch. -/
theorem c1_post_then_get_contains (resolve : String → Option User)
    (authHeader : Option String) (u : User) (events : List RawEvent)
    (now : Int) (store : List Row) (lookup : String → LookupResult)
    (hauth : authenticate resolve authHeader = .ok u)
    (hvalid : events.all validEvent = true)
    (hids : (events.map (fun e => effId e.id now)).Nodup) :
    (postRequest resolve authHeader (some events) now store).1 = .ok events.length ∧
    ∀ e ∈ events,
      ∃ it ∈ getData (postRequest resolve authHeader (some events) now store).2 lookup,
        it.title = e.title.getD "" ∧ it.date = e.date.getD "" ∧
        it.startTime = e.startTime.getD "" ∧ it.endTime = e.endTime.getD "" ∧
        it.userId = u.id := by
  have hp : postRequest resolve authHeader (some events) now store =
      (.ok events.length, upsert store (events.map (toRow u.id now))) := by
    unfold postRequest
    rw [hauth]
    unfold postData
    exact if_pos hvalid
  refine ⟨by rw [hp], ?_⟩
  intro e he
  have hnd : ((events.map (toRow u.id now)).map Row.id).Nodup := by
    have hm : (events.map (toRow u.id now)).map Row.id =
        events.map (fun e => effId e.id now) := by
      rw [List.map_map]
      rfl
    rw [hm]
    exact hids
  have hmem : toRow u.id now e ∈ upsert store (events.map (toRow u.id now)) :=
    mem_upsert_self _ store hnd _ (List.mem_map_of_mem _ he)
  refine ⟨transformItem (fun uid => emailEntry (lookup uid)) (toRow u.id now e),
    ?_, rfl, rfl, rfl, rfl, rfl⟩
  rw [hp]
  exact mem_getData lookup hmem

/-- C1 witness: posting the single valid booking `dupEventA` as the
resolved user "u1" succeeds, and the listing then contains an item with
its title, date and times owned by "u1". -/
theorem c1_post_then_get_contains_witness :
    (postRequest sampleResolve (some "Bearer tok") (some [dupEventA]) 99 []).1 =
      .ok 1 ∧
    ∃ it ∈ getData (postRequest sampleResolve (some "Bearer tok")
        (some [dupEventA]) 99 []).2 (fun _ => .failed),
      it.title = "A" ∧ it.date = "2024-01-05" ∧
      it.startTime = "09:00" ∧ it.endTime = "09:15" ∧ it.userId = "u1" := by
  have h := c1_post_then_get_contains sampleResolve (some "Bearer tok")
    ⟨"u1", some "bob@example.com"⟩ [dupEventA] 99 [] (fun _ => .failed)
    rfl (by decide) (by decide)
  exact ⟨h.1, h.2 dupEventA (by decide)⟩

/-- C6 (amended): for every listed item, a truthy resolved email gives
`userEmail` the email itself and `userName` its part before the first
`'@'`; a lookup that fails without throwing (provider error, no user, or
an absent/empty email) gives `userName` "Unknown" and `userEmail` the
sentinel "Unknown User"; but a lookup that throws stores the sentinel as
the email, so both `userEmail` and `userName` are "Unknown User". -/
theorem c6_username_from_email (store : List Row)
    (lookup : String → LookupResult) (it : Item)
    (hmem : it ∈ getData store lookup) :
    (∀ e : String, lookup it.userId = .found (some e) → e ≠ "" →
      it.userEmail = e ∧ it.userName = localPart e) ∧
    ((lookup it.userId = .failed ∨ lookup it.userId = .found none ∨
        lookup it.userId = .found (some "")) →
      it.userEmail = "Unknown User" ∧ it.userName = "Unknown") ∧
    (lookup it.userId = .thrown →
      it.userEmail = "Unknown User" ∧ it.userName = "Unknown User") := by
  rcases List.mem_map.mp hmem with ⟨r, hr, rfl⟩
  refine ⟨?_, ?_, ?_⟩
  · intro e hf hne
    have hf' : lookup r.user_id = .found (some e) := hf
    constructor
    · show jsOrDefault (emailEntry (lookup r.user_id)) "Unknown User" = e
      rw [hf']
      simp [emailEntry, jsOrDefault, hne]
    · show (match emailEntry (lookup r.user_id) with
        | none => "Unknown"
        | some s => if s = "" then "Unknown" else localPart s) = localPart e
      rw [hf']
      simp [emailEntry, hne]
  · intro hf
    have hf' : lookup r.user_id = .failed ∨ lookup r.user_id = .found none ∨
        lookup r.user_id = .found (some "") := hf
    constructor
    · show jsOrDefault (emailEntry (lookup r.user_id)) "Unknown User" = "Unknown User"
      rcases hf' with h | h | h <;> rw [h] <;> rfl
    · show (match emailEntry (lookup r.user_id) with
        | none => "Unknown"
        | some s => if s = "" then "Unknown" else localPart s) = "Unknown"
      rcases hf' with h | h | h <;> rw [h] <;> rfl
  · intro hf
    have hf' : lookup r.user_id = .thrown := hf
    constructor
    · show jsOrDefault (emailEntry (lookup r.user_id)) "Unknown User" = "Unknown User"
      rw [hf']
      rfl
    · show (match emailEntry (lookup r.user_id) with
        | none => "Unknown"
        | some s => if s = "" then "Unknown" else localPart s) = "Unknown User"
      rw [hf']
      decide

/-- C6 witness: in a listing whose only booking's owner lookup throws, the
item carries the sentinel "Unknown User" as both userEmail and userName. -/
theorem c6_username_from_email_witness :
    Item.userEmail ⟨.num 1, "A", "2024-01-05", "09:00", "09:15", "alice",
      "Unknown User", "Unknown User"⟩ = "Unknown User" ∧
    Item.userName ⟨.num 1, "A", "2024-01-05", "09:00", "09:15", "alice",
      "Unknown User", "Unknown User"⟩ = "Unknown User" :=
  (c6_username_from_email [sampleRow] (fun _ => .thrown)
    ⟨.num 1, "A", "2024-01-05", "09:00", "09:15", "alice",
      "Unknown User", "Unknown User"⟩ (by decide)).2.2 rfl
